import Mathlib

/-!
# Verification of the pIcom CI-V codec (src/pIcom.py)

Shallow embedding of the protocol core of `pIcom.py`: the BCD codec
(`Radio.convert_from_bcd` / `Radio.convert_to_bcd`), the frame builder
(`Icom7100.buildCommand` and the power-on lead-in of `Icom7100.turnOn`),
the response read loop and status classification (`Radio.readResponse`),
and the command methods `setOpFreq`, `selectMemChannel`, `setOpMode`.

Bytes and Python integers are modelled as `Nat` (the Python code keeps all
frame bytes as plain non-negative machine-unbounded ints in lists); the
serial transport is modelled as a byte source `Nat → Option Nat`
(`none` = a read that returned no data).  Diagnostic `print` calls that
classify a reply are modelled as constructors of an outcome type.
-/

namespace PIcom

/-! ## BCD codec (`Radio.convert_from_bcd`, lines 78-86; `Radio.convert_to_bcd`, lines 88-96) -/

/-- The `while bcd > 0` loop of `Radio.convert_from_bcd`, with the running
state (`place`, `decimal`) made explicit.  Each iteration reads the low
nibble (`bcd & 0xf`), adds it at the current decimal place, shifts `bcd`
right by 4 and multiplies `place` by 10. -/
def from_loop (bcd place decimal : Nat) : Nat :=
  if bcd = 0 then decimal
  else from_loop (bcd >>> 4) (place * 10) (decimal + (bcd &&& 0xf) * place)
termination_by bcd
decreasing_by
  rw [Nat.shiftRight_eq_div_pow]
  exact Nat.div_lt_self (Nat.pos_of_ne_zero (by assumption)) (by norm_num)

/-- `Radio.convert_from_bcd(bcd)`: loop entered with `place = 1`,
`decimal = 0`. -/
def convert_from_bcd (bcd : Nat) : Nat :=
  from_loop bcd 1 0

/-- The `while decimal > 0` loop of `Radio.convert_to_bcd`, with the running
state (`place`, `bcd`) made explicit.  Each iteration takes
`decimal % 10` as the next nibble, shifts it to the current bit position and
advances `place` by 4.  The Python body updates `decimal` with float
division (`decimal /= 10`); for the non-negative integer inputs the program
feeds it (decimal digit groups of at most 4 digits), every iteration past
the integer-division point extracts nibble `int(decimal % 10) = 0` until the
float underflows to `0.0`, so the returned value equals this
integer-division recursion. -/
def to_loop (decimal place bcd : Nat) : Nat :=
  if decimal = 0 then bcd
  else to_loop (decimal / 10) (place + 4) (bcd + (decimal % 10) <<< place)
termination_by decimal
decreasing_by
  exact Nat.div_lt_self (Nat.pos_of_ne_zero (by assumption)) (by norm_num)

/-- `Radio.convert_to_bcd(decimal)`: loop entered with `place = 0`,
`bcd = 0`. -/
def convert_to_bcd (decimal : Nat) : Nat :=
  to_loop decimal 0 0

/-- Closed form of the encode loop: it packs the base-10 digits of `d` as
base-16 nibbles, shifted onto the accumulator. -/
theorem to_loop_eq (d p b : Nat) :
    to_loop d p b = b + Nat.ofDigits 16 (Nat.digits 10 d) * 2 ^ p := by
  induction d using Nat.strong_induction_on generalizing p b with
  | _ d ih =>
    rw [to_loop]
    by_cases h : d = 0
    · simp [h]
    · rw [if_neg h, ih (d / 10) (Nat.div_lt_self (Nat.pos_of_ne_zero h) (by norm_num)),
        Nat.digits_def' (by norm_num : (1:Nat) < 10) (Nat.pos_of_ne_zero h), Nat.ofDigits_cons,
        Nat.shiftLeft_eq]
      ring

/-- Closed form of the decode loop: it reads the base-16 nibbles of `m` as
base-10 digits, scaled by the accumulator place. -/
theorem from_loop_eq (m p b : Nat) :
    from_loop m p b = b + Nat.ofDigits 10 (Nat.digits 16 m) * p := by
  induction m using Nat.strong_induction_on generalizing p b with
  | _ m ih =>
    rw [from_loop]
    by_cases h : m = 0
    · simp [h]
    · have hdiv : m >>> 4 = m / 16 := by rw [Nat.shiftRight_eq_div_pow]
      have hmod : m &&& 0xf = m % 16 := by
        have := Nat.and_pow_two_sub_one_eq_mod m 4
        simpa using this
      rw [if_neg h, hdiv, hmod, ih (m / 16) (Nat.div_lt_self (Nat.pos_of_ne_zero h) (by norm_num)),
        Nat.digits_def' (by norm_num : (1:Nat) < 16) (Nat.pos_of_ne_zero h), Nat.ofDigits_cons]
      ring

theorem convert_to_bcd_eq (n : Nat) :
    convert_to_bcd n = Nat.ofDigits 16 (Nat.digits 10 n) := by
  rw [convert_to_bcd, to_loop_eq]
  simp

theorem convert_from_bcd_eq (m : Nat) :
    convert_from_bcd m = Nat.ofDigits 10 (Nat.digits 16 m) := by
  rw [convert_from_bcd, from_loop_eq]
  simp

/-- The BCD round trip holds for every natural number: decimal digits are
all below 10, hence are faithfully stored as (and recovered from)
base-16 nibbles. -/
theorem bcd_round_trip (n : Nat) :
    convert_from_bcd (convert_to_bcd n) = n := by
  rw [convert_to_bcd_eq, convert_from_bcd_eq]
  by_cases h : n = 0
  · simp [h]
  · rw [Nat.digits_ofDigits 16 (by norm_num) (Nat.digits 10 n)
      (fun l hl => lt_trans (Nat.digits_lt_base (by norm_num) hl) (by norm_num))
      (fun _ => Nat.getLast_digit_ne_zero 10 h)]
    exact Nat.ofDigits_digits 10 n

/-! ## Frame builder (`Icom7100` class constants, lines 104-107, and
`Icom7100.buildCommand`, lines 116-134) -/

def PREAMBLE : List Nat := [0xfe, 0xfe]

def TRANSCEIVER_ADDR : List Nat := [0x88]

def CONTROLLER_ADDR : List Nat := [0xe0]

def EOM : List Nat := [0xfd]

/-- `Icom7100.buildCommand(cmd, subcmd=None, data=None)`: preamble, then
transceiver (destination) address, then controller (source) address, then
the command bytes, then the subcommand bytes if given, then the data bytes
if given, then the end-of-message byte. -/
def buildCommand (cmd : List Nat) (subcmd : Option (List Nat)) (data : Option (List Nat)) :
    List Nat :=
  let base_cmd := PREAMBLE ++ TRANSCEIVER_ADDR ++ CONTROLLER_ADDR
  let ncmd := base_cmd ++ cmd
  let ncmd := match subcmd with
    | some s => ncmd ++ s
    | none => ncmd
  let ncmd := match data with
    | some d => ncmd ++ d
    | none => ncmd
  ncmd ++ EOM

/-- `buildCommand` as one flat append (the `none` branches append
nothing). -/
theorem buildCommand_eq (cmd : List Nat) (subcmd : Option (List Nat)) (data : Option (List Nat)) :
    buildCommand cmd subcmd data =
      [0xfe, 0xfe, 0x88, 0xe0] ++ cmd ++ subcmd.getD [] ++ data.getD [] ++ [0xfd] := by
  cases subcmd <;> cases data <;> simp [buildCommand, PREAMBLE, TRANSCEIVER_ADDR,
    CONTROLLER_ADDR, EOM]

/-! ## Power-on (`Icom7100.turnOn`, lines 136-148) -/

/-- The `preamble_rpts` table of `Icom7100.turnOn`: extra preamble lead-in
count per baud rate.  A baud rate outside the table raises `KeyError` in
Python, modelled by `Option`. -/
def preamble_rpts : List (Nat × Nat) :=
  [(19200, 25), (9600, 13), (4800, 17), (1200, 3), (300, 2)]

/-- The frame sent by `Icom7100.turnOn` at a given configured baud rate:
`preamble_rpts[baud]` copies of `PREAMBLE[0] = 0xfe`, then the ordinary
power-on frame `buildCommand([0x18], [0x01])`. -/
def turnOn_cmd (baudrate : Nat) : Option (List Nat) :=
  (preamble_rpts.lookup baudrate).map
    (fun n => List.replicate n 0xfe ++ buildCommand [0x18] (some [0x01]) none)

/-! ## Response read loop (`Radio.readResponse`, lines 58-64)

The transport is a byte source `stream : Nat → Option Nat`: `stream i` is
what the `i`-th call of `self._serial.read(1)` returns (`none` when the
read returns no data, i.e. `len(d) == 0`).  The loop state is the pair
`(c, reply)`; `c` starts at `0` and `reply` at `[]`, and while `c ≠ 0xfd`
the loop reads once, overwrites `c` only when a byte arrived, and always
appends the current `c` to `reply`. -/

/-- One iteration of the `while c != 0xfd` body of `Radio.readResponse`:
read number `i` either delivers a byte `b` (then `c := b` is appended) or
delivers nothing (then the old `c` is appended again). -/
def loopStep (stream : Nat → Option Nat) (i : Nat) (st : Nat × List Nat) : Nat × List Nat :=
  match stream i with
  | some b => (b, st.2 ++ [b])
  | none => (st.1, st.2 ++ [st.1])

/-- State of the read loop of `Radio.readResponse` after `n` iterations
(stopping once `c = 0xfd` has been reached). -/
def loopState (stream : Nat → Option Nat) : Nat → Nat × List Nat
  | 0 => (0, [])
  | n + 1 =>
    let st := loopState stream n
    if st.1 = 0xfd then st else loopStep stream n st

/-! ## Status classification (`Radio.readResponse`, lines 66-76) -/

/-- Outcome of inspecting an accumulated reply: `ok` models the
`"Command OK!"` print, `ng` the `"Command No Good!"` print, and `data`
models returning the raw bytes to the caller without interpretation. -/
inductive ReadOutcome
  | ok
  | ng
  | data (bytes : List Nat)
deriving DecidableEq

/-- The classification tail of `Radio.readResponse`: a 6-byte reply is a
status reply judged by byte index 4 (`0xfb` = OK, `0xfa` = No Good); any
other reply is handed back uninterpreted (the hex-dump branch of the
source only formats the bytes and returns them). -/
def classify (reply : List Nat) : ReadOutcome :=
  if reply.length = 6 then
    if reply.getD 4 0 = 0xfb then .ok
    else if reply.getD 4 0 = 0xfa then .ng
    else .data reply
  else .data reply

/-! ## Frequency encode (`Icom7100.setOpFreq`, lines 271-287)

`setOpFreq` runs `str(freq).zfill(8)`, slices the resulting character
string, converts each slice back with `int`, and BCD-encodes each value.
Only non-negative integer arguments survive the `int(...)` calls on the
slices (a float's `str` contains `'.'` or `'e'`, a negative int's leading
`'-'` lands in a slice), so the accepted input is modelled as `Nat` and
the digit string as a big-endian list of decimal digits. -/

/-- `int(g)` on a non-empty decimal digit string `g`, as a fold over its
big-endian digits. -/
def digitsToNat (g : List Nat) : Nat :=
  g.foldl (fun acc d => acc * 10 + d) 0

/-- `str(freq).zfill(8)` as a big-endian decimal digit list: the digits of
`freq`, left-padded with zeros to length (at least) 8.  (`str(0)` is the
one-character string `"0"`; after the zero padding this coincides with
padding the empty digit list, so `Nat.digits 10` needs no special case.) -/
def nfreq8 (freq : Nat) : List Nat :=
  List.replicate (8 - (Nat.digits 10 freq).reverse.length) 0 ++ (Nat.digits 10 freq).reverse

/-- The slice list `tarr = [nfreq[-1], nfreq[-3:-1], nfreq[-5:-3],
nfreq[-7:-5], nfreq[0]]` of `setOpFreq`, on a digit list `s` (of length
`L ≥ 8` after padding): Python's `s[-k]` is `s[L-k]` and `s[-a:-b]` is the
characters at `L-a, …, L-b-1`. -/
def setOpFreq_tarr (s : List Nat) : List (List Nat) :=
  [s.drop (s.length - 1),
   (s.drop (s.length - 3)).take 2,
   (s.drop (s.length - 5)).take 2,
   (s.drop (s.length - 7)).take 2,
   s.take 1]

/-- The 5-byte data payload built by `Icom7100.setOpFreq`:
`data.append(convert_to_bcd(int(tarr[i])))` for the five slices in
order. -/
def setOpFreq_data (freq : Nat) : List Nat :=
  (setOpFreq_tarr (nfreq8 freq)).map (fun g => convert_to_bcd (digitsToNat g))

/-! ## Memory channel (`Icom7100.selectMemChannel`, lines 207-245) -/

/-- `str.upper()` for the ASCII strings used as table keys. -/
def strUpper (s : String) : String :=
  ⟨s.data.map Char.toUpper⟩

/-- The `chan_dict` table of `Icom7100.selectMemChannel`. -/
def chan_dict : List (String × List Nat) :=
  [("1A", [0x01, 0x00]),
   ("1B", [0x01, 0x01]),
   ("2A", [0x01, 0x02]),
   ("2B", [0x01, 0x03]),
   ("3A", [0x01, 0x04]),
   ("3B", [0x01, 0x05]),
   ("144-C1", [0x01, 0x06]),
   ("144-C2", [0x01, 0x07]),
   ("430-C1", [0x01, 0x08]),
   ("430-C2", [0x01, 0x09])]

/-- `int('0x%s' % str(c), 0)`: the decimal digit string of `c` re-read as a
hexadecimal literal, i.e. the base-10 digits of `c` given base-16 place
values. -/
def decDigitsAsHex (c : Nat) : Nat :=
  Nat.ofDigits 16 (Nat.digits 10 c)

/-- Data bytes (`ichannel`) chosen by `Icom7100.selectMemChannel` for an
integer channel argument: channels `c ≤ 99` become the single byte
`int('0x' + str(c), 0)`; larger integers leave `ichannel = None` (only the
error print runs, nothing is sent). -/
def selectMemChannel_dataInt (c : Nat) : Option (List Nat) :=
  if c ≤ 99 then some [decDigitsAsHex c] else none

/-- Data bytes (`ichannel`) chosen by `Icom7100.selectMemChannel` for a
string channel argument: `chan_dict[c.upper()]`, or `None` (error print,
nothing sent) when the key is unknown. -/
def selectMemChannel_dataStr (c : String) : Option (List Nat) :=
  chan_dict.lookup (strUpper c)

/-! ## Operating mode (`Icom7100.setOpMode`, lines 305-323) -/

/-- The `mode_dict` table of `Icom7100.setOpMode`. -/
def mode_dict : List (String × List Nat) :=
  [("LSB", [0x00]),
   ("USB", [0x01]),
   ("AM", [0x02]),
   ("CW", [0x03]),
   ("RTTY", [0x04]),
   ("FM", [0x05]),
   ("WFM", [0x06]),
   ("CW-R", [0x07]),
   ("RTTY-R", [0x08]),
   ("DV", [0x17])]

/-- The frame written by `Icom7100.setOpMode(mode)`, or `none` when nothing
is written: the guard is `mode is not None and mode.upper() in mode_dict`;
when it fails the method falls through without touching the transport.
(When the guard passes, the data lookup `mode_dict[mode]` uses the raw
`mode` string; a lower-case accepted mode therefore raises `KeyError`
before any write, which is likewise modelled as `none`.) -/
def setOpMode_frame (mode : Option String) : Option (List Nat) :=
  match mode with
  | none => none
  | some m =>
    if (mode_dict.lookup (strUpper m)).isSome then
      (mode_dict.lookup m).map (fun d => buildCommand [0x06] none (some d))
    else none

/-! ## Helper lemmas for the frequency slicing -/

/-- Decimal digits of `n < 10^k`, right-padded with zeros to length `k`,
listed least-significant first: position `i` holds `n / 10^i % 10`. -/
theorem digits_pad_eq (k : Nat) : ∀ n, n < 10 ^ k →
    Nat.digits 10 n ++ List.replicate (k - (Nat.digits 10 n).length) 0 =
      (List.range k).map (fun i => n / 10 ^ i % 10) := by
  induction k with
  | zero =>
    intro n hn
    interval_cases n
    simp
  | succ k ih =>
    intro n hn
    by_cases h : n = 0
    · subst h
      simp [List.map_const']
    · rw [Nat.digits_def' (by norm_num : (1:Nat) < 10) (Nat.pos_of_ne_zero h)]
      have hlt : n / 10 < 10 ^ k := by
        rw [Nat.div_lt_iff_lt_mul (by norm_num)]
        calc n < 10 ^ (k + 1) := hn
        _ = 10 ^ k * 10 := by ring
      have htail := ih (n / 10) hlt
      rw [List.range_succ_eq_map, List.map_cons, List.cons_append, List.length_cons]
      congr 1
      · simp
      · rw [show k + 1 - ((Nat.digits 10 (n / 10)).length + 1) =
            k - (Nat.digits 10 (n / 10)).length by omega, htail, List.map_map]
        refine List.map_congr_left fun i _ => ?_
        simp only [Function.comp_apply]
        rw [Nat.div_div_eq_div_mul, ← pow_succ']

/-- For `freq < 10^8`, the padded digit string of `setOpFreq` is the eight
decimal digits of `freq`, most significant first. -/
theorem nfreq8_eq (freq : Nat) (h : freq < 10 ^ 8) :
    nfreq8 freq =
      [freq / 10000000 % 10, freq / 1000000 % 10, freq / 100000 % 10, freq / 10000 % 10,
       freq / 1000 % 10, freq / 100 % 10, freq / 10 % 10, freq % 10] := by
  have hrev : (nfreq8 freq).reverse =
      Nat.digits 10 freq ++ List.replicate (8 - (Nat.digits 10 freq).length) 0 := by
    simp [nfreq8]
  have h8 := digits_pad_eq 8 freq h
  have : nfreq8 freq = ((List.range 8).map (fun i => freq / 10 ^ i % 10)).reverse := by
    rw [← h8, ← hrev, List.reverse_reverse]
  rw [this]
  simp [List.range_succ]

/-! ## Claim theorems -/

/-- C1: BCD round-trip — for every integer `n` in `[0, 9999]` (the range
representable in the packed width the program uses),
`convert_from_bcd (convert_to_bcd n) = n`. -/
theorem C1_bcd_round_trip (n : Nat) (h : n ≤ 9999) :
    convert_from_bcd (convert_to_bcd n) = n :=
  bcd_round_trip n

theorem C1_bcd_round_trip_witness :
    9999 ≤ 9999 ∧ convert_from_bcd (convert_to_bcd 9999) = 9999 :=
  ⟨by decide, C1_bcd_round_trip 9999 (by decide)⟩

/-- C2, counterexample: for the 8-digit frequency `12345678` the claimed
slicing (last two digits `78`, then `56`, `34`, `12` counted from the end,
then the leading digit `1`) does not describe the emitted payload — the
code's first slice `nfreq[-1]` is the last single digit, so the payload is
`[0x08, 0x67, 0x45, 0x23, 0x01]`, not `[0x78, 0x56, 0x34, 0x12, 0x01]`. -/
theorem C2_freq_slicing_counterexample :
    setOpFreq_data 12345678 ≠
      [convert_to_bcd 78, convert_to_bcd 56, convert_to_bcd 34, convert_to_bcd 12,
       convert_to_bcd 1] := by
  simp only [setOpFreq_data, setOpFreq_tarr, nfreq8, digitsToNat, convert_to_bcd_eq]
  simp [Nat.ofDigits_cons, Nat.ofDigits_nil]

/-- C2, amended: for every frequency value accepted by `setOpFreq`
(a non-negative integer) below `10^8`, the value is formatted as an
8-character zero-padded decimal string and sliced into 5 groups in wire
order — the last single digit, the digit pairs 2-3, 4-5 and 6-7 counted
from the end, and the leading digit — each group independently
BCD-encoded, and the 5 encoded bytes emitted as the data payload in that
slice order. -/
theorem C2_freq_slicing_amended (freq : Nat) (h : freq < 10 ^ 8) :
    setOpFreq_data freq =
      [convert_to_bcd (freq % 10),
       convert_to_bcd (freq / 10 % 100),
       convert_to_bcd (freq / 1000 % 100),
       convert_to_bcd (freq / 100000 % 100),
       convert_to_bcd (freq / 10000000)] := by
  rw [setOpFreq_data, nfreq8_eq freq h]
  simp only [setOpFreq_tarr, digitsToNat, List.length_cons, List.length_nil]
  norm_num
  refine ⟨?_, ?_, ?_, ?_⟩ <;> exact congrArg convert_to_bcd (by omega)

theorem C2_freq_slicing_amended_witness :
    14652000 < 10 ^ 8 ∧
      setOpFreq_data 14652000 =
        [convert_to_bcd (14652000 % 10),
         convert_to_bcd (14652000 / 10 % 100),
         convert_to_bcd (14652000 / 1000 % 100),
         convert_to_bcd (14652000 / 100000 % 100),
         convert_to_bcd (14652000 / 10000000)] :=
  ⟨by decide, C2_freq_slicing_amended 14652000 (by decide)⟩

/-- C3: frame build — for every command, subcommand and data,
`buildCommand` returns the preamble `FE FE`, the destination (transceiver)
address `88`, the source (controller) address `E0`, the command, the
subcommand if present, the data if present, and the terminator `FD`; in
particular `buildCommand [0x03]` with no subcommand and no data is exactly
the 6 bytes `FE FE 88 E0 03 FD`. -/
theorem C3_buildCommand_frame :
    (∀ (cmd : List Nat) (subcmd data : Option (List Nat)),
        buildCommand cmd subcmd data =
          [0xfe, 0xfe] ++ [0x88] ++ [0xe0] ++ cmd ++ subcmd.getD [] ++ data.getD [] ++ [0xfd]) ∧
    buildCommand [0x03] none none = [0xfe, 0xfe, 0x88, 0xe0, 0x03, 0xfd] :=
  ⟨fun cmd subcmd data => by rw [buildCommand_eq]; simp, rfl⟩

/-- C4: status classification — a 6-byte accumulated reply is classified by
byte index 4 (`0xFB` = OK, `0xFA` = rejected/No Good), and a reply of any
other length is handed back to the caller uninterpreted as a data
payload. -/
theorem C4_status_classification (reply : List Nat) :
    (reply.length = 6 →
      (reply.getD 4 0 = 0xfb → classify reply = .ok) ∧
      (reply.getD 4 0 = 0xfa → classify reply = .ng)) ∧
    (reply.length ≠ 6 → classify reply = .data reply) := by
  refine ⟨fun h6 => ⟨fun hb => ?_, fun ha => ?_⟩, fun hn => ?_⟩ <;>
    simp_all [classify]

theorem C4_status_classification_witness :
    classify [0xfe, 0xfe, 0xe0, 0x88, 0xfb, 0xfd] = .ok ∧
    classify [0xfe, 0xfe, 0xe0, 0x88, 0xfa, 0xfd] = .ng ∧
    classify [0x01, 0x02] = .data [0x01, 0x02] :=
  ⟨((C4_status_classification [0xfe, 0xfe, 0xe0, 0x88, 0xfb, 0xfd]).1 (by decide)).1 (by decide),
   ((C4_status_classification [0xfe, 0xfe, 0xe0, 0x88, 0xfa, 0xfd]).1 (by decide)).2 (by decide),
   (C4_status_classification [0x01, 0x02]).2 (by decide)⟩

/-- C5: power-on framing — `turnOn` prepends the baud-rate-dependent number
of extra `0xFE` lead-in bytes given by the fixed table `19200 → 25`,
`9600 → 13`, `4800 → 17`, `1200 → 3`, `300 → 2` before the normal power-on
frame `buildCommand [0x18] [0x01]`; in particular at baud 19200 exactly 25
extra `0xFE` bytes are prepended. -/
theorem C5_turnOn_lead_in :
    turnOn_cmd 19200 = some (List.replicate 25 0xfe ++ buildCommand [0x18] (some [0x01]) none) ∧
    turnOn_cmd 9600 = some (List.replicate 13 0xfe ++ buildCommand [0x18] (some [0x01]) none) ∧
    turnOn_cmd 4800 = some (List.replicate 17 0xfe ++ buildCommand [0x18] (some [0x01]) none) ∧
    turnOn_cmd 1200 = some (List.replicate 3 0xfe ++ buildCommand [0x18] (some [0x01]) none) ∧
    turnOn_cmd 300 = some (List.replicate 2 0xfe ++ buildCommand [0x18] (some [0x01]) none) :=
  ⟨rfl, rfl, rfl, rfl, rfl⟩

/-- C6: the claim says the read loop terminates with a `Timeout` condition
on a transport that never emits `0xFD`; the code's loop in
`Radio.readResponse` has no timeout and never reaches its exit condition
on such a transport — after any number of iterations the loop guard
`c ≠ 0xfd` still holds, so the loop runs forever (the defect §5 of the
spec acknowledges). -/
theorem C6_read_loop_no_timeout (stream : Nat → Option Nat)
    (h : ∀ i b, stream i = some b → b ≠ 0xfd) (n : Nat) :
    (loopState stream n).1 ≠ 0xfd := by
  induction n with
  | zero => simp [loopState]
  | succ n ih =>
    simp only [loopState]
    rw [if_neg ih]
    unfold loopStep
    cases hs : stream n with
    | none => simpa using ih
    | some b => simpa using h n b hs

theorem C6_read_loop_no_timeout_witness :
    (loopState (fun _ => some 0x00) 7).1 ≠ 0xfd :=
  C6_read_loop_no_timeout (fun _ => some 0x00)
    (fun _ b hb => by injection hb with hb; omega) 7

/-- C7: memory channel mapping — string channel `"1A"` produces data bytes
`[0x01, 0x00]`; every integer channel `c ≤ 99` produces the single data
byte obtained by reading the decimal digits of `c` as a hexadecimal
literal (`16 * (c / 10) + c % 10`); in particular channel 12 produces
`[0x12]`. -/
theorem C7_mem_channel :
    selectMemChannel_dataStr "1A" = some [0x01, 0x00] ∧
    (∀ c : Nat, c ≤ 99 → selectMemChannel_dataInt c = some [16 * (c / 10) + c % 10]) ∧
    selectMemChannel_dataInt 12 = some [0x12] := by
  refine ⟨by decide, fun c hc => ?_, by simp [selectMemChannel_dataInt, decDigitsAsHex,
    Nat.ofDigits_cons, Nat.ofDigits_nil]⟩
  rw [selectMemChannel_dataInt, if_pos hc, decDigitsAsHex]
  by_cases h0 : c = 0
  · subst h0; simp
  · rw [Nat.digits_def' (by norm_num : (1:Nat) < 10) (Nat.pos_of_ne_zero h0), Nat.ofDigits_cons]
    by_cases h1 : c / 10 = 0
    · rw [h1]
      simp only [Nat.digits_zero, Nat.ofDigits_nil, Option.some.injEq, List.cons.injEq, and_true]
      omega
    · rw [Nat.digits_of_lt 10 (c / 10) h1 (by omega), Nat.ofDigits_singleton]
      simp only [Option.some.injEq, List.cons.injEq, and_true]
      omega

theorem C7_mem_channel_witness :
    selectMemChannel_dataInt 42 = some [0x42] := by
  have h := C7_mem_channel.2.1 42 (by decide)
  simpa using h

/-- C8: fail-fast on unsupported mode — for every mode string whose
upper-cased form is not a key of the fixed mode table (such as `"XYZ"`),
`setOpMode` writes nothing to the transport: no frame is produced. -/
theorem C8_setOpMode_reject :
    (∀ m : String, mode_dict.lookup (strUpper m) = none → setOpMode_frame (some m) = none) ∧
    setOpMode_frame (some "XYZ") = none :=
  ⟨fun m hm => by simp [setOpMode_frame, hm], by decide⟩

theorem C8_setOpMode_reject_witness :
    mode_dict.lookup (strUpper "QRP") = none ∧ setOpMode_frame (some "QRP") = none :=
  ⟨by decide, C8_setOpMode_reject.1 "QRP" (by decide)⟩

/-- A list followed by a one-element list always ends in that element. -/
theorem getLast?_append_singleton (l : List Nat) (a : Nat) : (l ++ [a]).getLast? = some a := by
  induction l with
  | nil => rfl
  | cons x xs ih =>
    cases xs with
    | nil => rfl
    | cons y ys => simpa [List.getLast?_cons_cons] using ih

/-- C9: implicit frame invariant — every frame built by `buildCommand`
begins with the four bytes `FE FE 88 E0`, ends in `0xFD`, contributes
exactly one `0xFD` beyond those already present in the command, subcommand
and data, and has length `4 + |cmd| + |subcmd| + |data| + 1`. -/
theorem C9_buildCommand_invariant (cmd : List Nat) (subcmd data : Option (List Nat)) :
    (buildCommand cmd subcmd data).take 4 = [0xfe, 0xfe, 0x88, 0xe0] ∧
    (buildCommand cmd subcmd data).getLast? = some 0xfd ∧
    (buildCommand cmd subcmd data).length =
      4 + cmd.length + (subcmd.getD []).length + (data.getD []).length + 1 ∧
    (buildCommand cmd subcmd data).count 0xfd =
      (cmd ++ subcmd.getD [] ++ data.getD []).count 0xfd + 1 := by
  rw [buildCommand_eq]
  refine ⟨rfl, ?_, ?_, ?_⟩
  · rw [show ([0xfe, 0xfe, 0x88, 0xe0] : List Nat) ++ cmd ++ subcmd.getD [] ++ data.getD [] ++
        [0xfd] =
        ([0xfe, 0xfe, 0x88, 0xe0] ++ cmd ++ subcmd.getD [] ++ data.getD []) ++ [0xfd] by simp]
    exact getLast?_append_singleton _ _
  · simp
    omega
  · simp [List.count_append]
    omega

/-- C10: empty-read duplication — whenever a read of the loop in
`Radio.readResponse` returns no data, the current value of `c` (`0` before
any byte has arrived, the previous byte afterwards) is appended to the
reply again; concretely, a transport whose first read is empty and whose
second read delivers `0xFD` yields the reply `[0x00, 0xFD]`, whose leading
`0x00` the transport never produced. -/
theorem C10_empty_read_duplication :
    (∀ (stream : Nat → Option Nat) (n : Nat),
        (loopState stream n).1 ≠ 0xfd → stream n = none →
        loopState stream (n + 1) =
          ((loopState stream n).1, (loopState stream n).2 ++ [(loopState stream n).1])) ∧
    loopState (fun i => if i = 0 then none else some 0xfd) 2 = (0xfd, [0x00, 0xfd]) := by
  constructor
  · intro s n h hn
    simp only [loopState]
    rw [if_neg h]
    simp [loopStep, hn]
  · decide

theorem C10_empty_read_duplication_witness :
    loopState (fun _ => none) 1 = (0x00, [0x00]) := by
  have h := C10_empty_read_duplication.1 (fun _ => none) 0 (by decide) rfl
  simpa [loopState] using h

end PIcom
